import Mathlib

/-!
Verification of the iterators++ cursor library (src/iterators++.h) against its
natural-language specification.

The development is a shallow embedding: each C++ component is translated into
executable Lean definitions and the spec's claims are settled as theorems about
those definitions.

Conventions used throughout:
* C++ machine integers are modelled as `Nat`/`Int`, with explicit `% 2^w`
  wherever unsigned wrap-around semantics matter.
* Compile-time (template/SFINAE) computations on element types are modelled as
  functions over `CppType`, a datatype of element types that satisfy the
  library's minimum contract (prefix increment + equality comparison, per the
  header comment "T must define operators ++ (prefix) and ==").
* Stateful callables (the `F` parameters) are modelled as step functions
  `S -> S x V` over an explicit callable state `S`.
-/

namespace IteratorsPP

/-! ## Capability deduction: `value_iterator_traits` (iterators++.h lines 16-54) -/

/-- A model of the C++ element types that satisfy `value_iterator`'s minimum
contract (prefix `++` and `==`).  Integral types carry their bit width;
`objPtr` is a pointer to an object type (the only pointers supporting `++`);
`custom` is a class type with the indicated optional operators
(`hasDec` = prefix `--`, `hasPlusEq` = compound `+=`). -/
inductive CppType where
  | signedInt (width : Nat)
  | unsignedInt (width : Nat)
  | objPtr
  | custom (hasDec : Bool) (hasPlusEq : Bool)
  deriving DecidableEq, Repr

/-- A C++ integer type, as signedness plus bit width (used for the deduced
`difference_type`). -/
structure IntTy where
  sgn : Bool
  width : Nat
  deriving DecidableEq, Repr

/-- Width of a pointer / of `std::ptrdiff_t` on the modelled platform. -/
def ptrBits : Nat := 64

/-- `std::ptrdiff_t`: a pointer-sized signed integer. -/
def ptrdiffTy : IntTy := { sgn := true, width := ptrBits }

/-- `std::is_integral<T>::value` for the modelled element types. -/
def isIntegral : CppType → Bool
  | .signedInt _ => true
  | .unsignedInt _ => true
  | .objPtr => false
  | .custom _ _ => false

/-- `std::is_pointer<T>::value` for the modelled element types. -/
def isPointer : CppType → Bool
  | .objPtr => true
  | _ => false

/-- Whether the element type supports compound add-assignment (`+=`).
All integral types and object-pointer types in the contract universe do;
a custom class type supports it exactly when it declares it. -/
def hasCompoundAdd : CppType → Bool
  | .signedInt _ => true
  | .unsignedInt _ => true
  | .objPtr => true
  | .custom _ p => p

/-- Whether the element type supports prefix decrement (`--`).
All integral and object-pointer types in the contract universe do;
a custom class type supports it exactly when it declares it. -/
def hasPrefixDecOp : CppType → Bool
  | .signedInt _ => true
  | .unsignedInt _ => true
  | .objPtr => true
  | .custom d _ => d

/-- `value_iterator_traits::__satisfies_rand_access` (iterators++.h lines
34-36): the `std::true_type` overload is selected exactly when
`std::is_integral<T>::value || std::is_pointer<T>::value`. -/
def satisfies_rand_access (t : CppType) : Bool :=
  isIntegral t || isPointer t

/-- `value_iterator_traits::__has_prefix_dec` (iterators++.h lines 39-41):
the `std::true_type` overload is selected exactly when `--declval<T&>()` is
well-formed. -/
def has_prefix_dec (t : CppType) : Bool :=
  hasPrefixDecOp t

/-- `value_iterator_traits::__diff_type` (iterators++.h lines 29-31, 47):
for integral `T` the `nullptr_t` overload returning `std::make_signed_t<T>`
is selected; otherwise the default overload returning `std::ptrdiff_t`.
(The older revision in src/unnamed/part_000 lines 29-34 instead returns `T`
itself for integral `T`; this embedding follows the current header.) -/
def difference_type : CppType → IntTy
  | .signedInt w => { sgn := true, width := w }
  | .unsignedInt w => { sgn := true, width := w }
  | .objPtr => ptrdiffTy
  | .custom _ _ => ptrdiffTy

/-- Bit width of an integral element type (used to compare against the width
of the deduced difference type). -/
def elemWidth : CppType → Nat
  | .signedInt w => w
  | .unsignedInt w => w
  | .objPtr => ptrBits
  | .custom _ _ => 0

/-- The three capability tiers (`std::forward_iterator_tag`,
`std::bidirectional_iterator_tag`, `std::random_access_iterator_tag`). -/
inductive IterCategory where
  | forward
  | bidirectional
  | randomAccess
  deriving DecidableEq, Repr

/-- `value_iterator_traits::iterator_category` (iterators++.h lines 51-53):
random access if `__satisfies_rand_access`, else bidirectional if
`__has_prefix_dec`, else forward. -/
def iterator_category (t : CppType) : IterCategory :=
  if satisfies_rand_access t then IterCategory.randomAccess
  else if has_prefix_dec t then IterCategory.bidirectional
  else IterCategory.forward

/-! ## `value_iterator` (iterators++.h lines 62-175)

Only the random-access arithmetic needs a value model.  Two instantiations
cover the random-access element types:
* `UValueIterator w` — `value_iterator<T>` for an unsigned integral `T` of
  width `w`: the stored value lives in `[0, 2^w)` and all arithmetic wraps
  modulo `2^w`; the deduced `difference_type` is the signed type of width `w`.
* `IValueIterator` — `value_iterator<T>` for a signed integral or object
  pointer `T`, modelled with mathematical integers (the defined-behaviour
  region: signed overflow / pointer overflow is UB and outside the model).
-/

/-- Reinterpret the unsigned residue `n` (expected in `[0, 2^w)`) as a signed
two's-complement `w`-bit value, as the conversion from unsigned `T` to
`make_signed_t<T>` does. -/
def toSigned (w : Nat) (n : Int) : Int :=
  if n < 2 ^ (w - 1) then n else n - 2 ^ w

/-- `value_iterator<T>` for unsigned `T`: just the stored value `data`
(iterators++.h line 77), kept as its residue mod `2^w`. -/
structure UValueIterator where
  data : Nat
  deriving DecidableEq, Repr

/-- `value_iterator::operator+=` (line 137): `data += d`, with the signed
offset converted to unsigned and the sum wrapping mod `2^w`. -/
def UValueIterator.addAssign (w : Nat) (v : UValueIterator) (d : Int) : UValueIterator :=
  ⟨(((v.data : Int) + d) % (2 ^ w : Int)).toNat⟩

/-- `value_iterator::operator-=` (line 140): `data -= d`, wrapping. -/
def UValueIterator.subAssign (w : Nat) (v : UValueIterator) (d : Int) : UValueIterator :=
  ⟨(((v.data : Int) - d) % (2 ^ w : Int)).toNat⟩

/-- `operator+(value_iterator, d)` (line 144): copy then `+=`. -/
def UValueIterator.plus (w : Nat) (v : UValueIterator) (d : Int) : UValueIterator :=
  UValueIterator.addAssign w v d

/-- `value_iterator::operator[]` (line 133): `T cpy(data); cpy += d; return cpy;`. -/
def UValueIterator.index (w : Nat) (v : UValueIterator) (d : Int) : Nat :=
  (((v.data : Int) + d) % (2 ^ w : Int)).toNat

/-- `value_iterator::operator*` (line 105): the stored value. -/
def UValueIterator.deref (v : UValueIterator) : Nat :=
  v.data

/-- `operator-(value_iterator, value_iterator)` (line 155): `a.data - b.data`
computed in unsigned `T` (wraps mod `2^w`), then converted to the signed
`difference_type`. -/
def UValueIterator.dist (w : Nat) (a b : UValueIterator) : Int :=
  toSigned w (((a.data : Int) - b.data) % (2 ^ w : Int))

/-- `value_iterator<T>` for signed integral or object pointer `T`
(defined-behaviour region), stored value as an integer / address. -/
structure IValueIterator where
  data : Int
  deriving DecidableEq, Repr

/-- `value_iterator::operator+=` for signed/pointer `T` (line 137). -/
def IValueIterator.addAssign (v : IValueIterator) (d : Int) : IValueIterator :=
  ⟨v.data + d⟩

/-- `operator+(value_iterator, d)` for signed/pointer `T` (line 144). -/
def IValueIterator.plus (v : IValueIterator) (d : Int) : IValueIterator :=
  IValueIterator.addAssign v d

/-- `value_iterator::operator[]` for signed/pointer `T` (line 133). -/
def IValueIterator.index (v : IValueIterator) (d : Int) : Int :=
  v.data + d

/-- `value_iterator::operator*` for signed/pointer `T` (line 105). -/
def IValueIterator.deref (v : IValueIterator) : Int :=
  v.data

/-- `operator-(value_iterator, value_iterator)` for signed/pointer `T`
(line 155). -/
def IValueIterator.dist (a b : IValueIterator) : Int :=
  a.data - b.data

/-! ## `func_iterator` (iterators++.h lines 221-292), pure model

The stored callable `F` is a stateful zero-argument generator; it is modelled
by an explicit state type `S` together with a step function
`step : S -> S x V` (one invocation: next internal state and produced value).
A `func_iterator` owns the callable state (inside its `assignable_func`
member) and the cached value in its `_value` buffer. -/

/-- `func_iterator`'s data (lines 238-240): the cached value in the `_value`
buffer, and the stored callable's current internal state. -/
structure FuncIterator (S V : Type) where
  value : V
  fstate : S
  deriving DecidableEq, Repr

/-- `func_iterator::func_iterator(F)` (lines 252-253): store the callable,
then call it once — `new (_value) V(func())` — to populate the cache. -/
def FuncIterator.start {S V : Type} (step : S → S × V) (s : S) : FuncIterator S V :=
  { value := (step s).2, fstate := (step s).1 }

/-- `func_iterator::operator*` (lines 271-274): return the cached value. -/
def FuncIterator.deref {S V : Type} (it : FuncIterator S V) : V :=
  it.value

/-- `func_iterator::operator++` (line 284): `value() = func();` — call the
callable once more and overwrite the cache. -/
def FuncIterator.inc {S V : Type} (step : S → S × V) (it : FuncIterator S V) : FuncIterator S V :=
  { value := (step it.fstate).2, fstate := (step it.fstate).1 }

/-- Callable state after `n` invocations, starting from the state the callable
was constructed with. -/
def genState {S V : Type} (step : S → S × V) (s : S) : Nat → S
  | 0 => s
  | n + 1 => (step (genState step s n)).1

/-- The `(n+1)`-th value the callable produces (so `genVal step s 0` is the
first produced value). -/
def genVal {S V : Type} (step : S → S × V) (s : S) (n : Nat) : V :=
  (step (genState step s n)).2

/-- Instrument a callable with an invocation counter: each call bumps the
count by one.  Used to state "invokes the callable exactly once". -/
def countingStep {S V : Type} (step : S → S × V) : S × Nat → (S × Nat) × V :=
  fun p => (((step p.1).1, p.2 + 1), (step p.1).2)

/-! ## `func_iterator`, heap model (for copy/assignment independence)

The `_value` buffer (line 238) is raw placement storage.  To state that a
copied cursor's cache never aliases its source's cache, the buffers are given
explicit addresses in a heap; the callable state is a plain by-value member
and stays inside the iterator record. -/

/-- A heap of cache buffers: contents plus a bump allocator. -/
structure Heap (V : Type) where
  mem : Nat → V
  nextAddr : Nat

/-- Read a buffer. -/
def Heap.read {V : Type} (h : Heap V) (a : Nat) : V :=
  h.mem a

/-- Overwrite a buffer. -/
def Heap.write {V : Type} (h : Heap V) (a : Nat) (v : V) : Heap V :=
  { h with mem := fun x => if x = a then v else h.mem x }

/-- Allocate a fresh buffer holding `v`, returning its address. -/
def Heap.alloc {V : Type} (h : Heap V) (v : V) : Nat × Heap V :=
  (h.nextAddr, { mem := fun x => if x = h.nextAddr then v else h.mem x, nextAddr := h.nextAddr + 1 })

/-- A `func_iterator` in the heap model: the address of its `_value` buffer
and the by-value callable state. -/
structure HFuncIterator (S : Type) where
  buf : Nat
  fstate : S

/-- `func_iterator`'s copy constructor (line 258): copy the callable
(`func(other.func)`) and construct a fresh cache from the source's cache
(`new (_value) V(other.value())`) — fresh storage, never aliased. -/
def HFuncIterator.copyCtor {S V : Type} (src : HFuncIterator S) (h : Heap V) :
    HFuncIterator S × Heap V :=
  let a := h.alloc (h.read src.buf)
  (⟨a.1, src.fstate⟩, a.2)

/-- `func_iterator::operator=` (line 264): `value() = other.value(); func = other.func;`
— overwrite this cursor's own existing buffer and callable state. -/
def HFuncIterator.assign {S V : Type} (dst src : HFuncIterator S) (h : Heap V) :
    HFuncIterator S × Heap V :=
  (⟨dst.buf, src.fstate⟩, h.write dst.buf (h.read src.buf))

/-- `func_iterator::operator++` (line 284) in the heap model: call the
callable, write the produced value into this cursor's own buffer. -/
def HFuncIterator.inc {S V : Type} (step : S → S × V) (it : HFuncIterator S) (h : Heap V) :
    HFuncIterator S × Heap V :=
  (⟨it.buf, (step it.fstate).1⟩, h.write it.buf (step it.fstate).2)

/-- `n`-fold increment of a heap-model `func_iterator`. -/
def iterInc {S V : Type} (step : S → S × V) : Nat → HFuncIterator S × Heap V → HFuncIterator S × Heap V
  | 0, p => p
  | n + 1, p => iterInc step n (HFuncIterator.inc step p.1 p.2)

/-! ## `count_iterator` (iterators++.h lines 369-487)

The wrapped iterator type `Iter` is kept abstract (a type `I`); its own
positional operations are parameters.  `count_t = make_signed_t<size_t>`
(line 384) is a 64-bit signed counter, modelled as `Int` (the claims under
verification concern its relational structure, where no wrap occurs). -/

/-- `count_iterator`'s data (lines 388-389): the stored iterator and counter. -/
structure CountIterator (I : Type) where
  iter : I
  count : Int
  deriving DecidableEq, Repr

/-- `operator==(count_iterator, count_iterator)` (line 485): compares the
counts — does not compare the stored iterators. -/
def CountIterator.beq {I : Type} (a b : CountIterator I) : Bool :=
  a.count == b.count

/-- `operator-(count_iterator, count_iterator)` (line 467): the difference of
the stored counts. -/
def CountIterator.dist {I : Type} (a b : CountIterator I) : Int :=
  a.count - b.count

/-- `operator<` (line 471): compares the stored counts. -/
def CountIterator.lt {I : Type} (a b : CountIterator I) : Bool :=
  a.count < b.count

/-- `operator<=` (line 474): compares the stored counts. -/
def CountIterator.le {I : Type} (a b : CountIterator I) : Bool :=
  a.count ≤ b.count

/-- `operator>` (line 477): compares the stored counts. -/
def CountIterator.gt {I : Type} (a b : CountIterator I) : Bool :=
  a.count > b.count

/-- `operator>=` (line 480): compares the stored counts. -/
def CountIterator.ge {I : Type} (a b : CountIterator I) : Bool :=
  a.count ≥ b.count

/-- `count_iterator::operator++` (line 429): `++count; ++iter;`. -/
def CountIterator.inc {I : Type} (fInc : I → I) (c : CountIterator I) : CountIterator I :=
  { iter := fInc c.iter, count := c.count + 1 }

/-- `count_iterator::operator--` (line 436): `--count; --iter;`. -/
def CountIterator.dec {I : Type} (fDec : I → I) (c : CountIterator I) : CountIterator I :=
  { iter := fDec c.iter, count := c.count - 1 }

/-- `count_iterator::operator+=` (line 449): `count += d; iter += d;`. -/
def CountIterator.addAssign {I : Type} (fAdd : I → Int → I) (c : CountIterator I) (d : Int) :
    CountIterator I :=
  { iter := fAdd c.iter d, count := c.count + d }

/-- `count_iterator::operator-=` (line 452): `count -= d; iter -= d;`. -/
def CountIterator.subAssign {I : Type} (fSub : I → Int → I) (c : CountIterator I) (d : Int) :
    CountIterator I :=
  { iter := fSub c.iter d, count := c.count - d }

/-- The positional operations a counting cursor can undergo. -/
inductive PosOp where
  | step
  | back
  | add (d : Int)
  | sub (d : Int)
  deriving DecidableEq, Repr

/-- The bundle of the inner iterator's own positional operations
(one advance, one retreat, offset by `d`, offset by `-d`). -/
structure InnerOps (I : Type) where
  fInc : I → I
  fDec : I → I
  fAdd : I → Int → I
  fSub : I → Int → I

/-- Apply one positional operation to a counting cursor, as the code does. -/
def CountIterator.applyOp {I : Type} (ops : InnerOps I) (c : CountIterator I) : PosOp → CountIterator I
  | .step => CountIterator.inc ops.fInc c
  | .back => CountIterator.dec ops.fDec c
  | .add d => CountIterator.addAssign ops.fAdd c d
  | .sub d => CountIterator.subAssign ops.fSub c d

/-- Apply a sequence of positional operations to a counting cursor. -/
def CountIterator.applyOps {I : Type} (ops : InnerOps I) (c : CountIterator I) :
    List PosOp → CountIterator I
  | [] => c
  | o :: rest => CountIterator.applyOps ops (CountIterator.applyOp ops c o) rest

/-- Apply the same positional operation directly to a bare inner cursor. -/
def innerApplyOp {I : Type} (ops : InnerOps I) (i : I) : PosOp → I
  | .step => ops.fInc i
  | .back => ops.fDec i
  | .add d => ops.fAdd i d
  | .sub d => ops.fSub i d

/-- Apply a sequence of positional operations directly to a bare inner cursor. -/
def innerApplyOps {I : Type} (ops : InnerOps I) (i : I) : List PosOp → I
  | [] => i
  | o :: rest => innerApplyOps ops (innerApplyOp ops i o) rest

/-- The signed displacement one positional operation performs. -/
def opDelta : PosOp → Int
  | .step => 1
  | .back => -1
  | .add d => d
  | .sub d => -d

/-- The net displacement of a sequence of positional operations. -/
def netDelta : List PosOp → Int
  | [] => 0
  | o :: rest => opDelta o + netDelta rest

/-! ## `mapping_iterator` (iterators++.h lines 495-620)

The inner cursor type `I` is abstract; because claims C1/C7 are about freshly
re-reading a value that can be mutated *between* accesses, the inner cursor's
dereference is given access to an external mutable world `St`:
`derefInner : I -> St -> A` yields what `*iter` currently reads.  The stored
transform `f` is a parameter (the `assignable_func<F>` member holds it
unchanged).  The record keeps the `temp_mapped_value` scratch slot
(line 520), which only `operator->` touches. -/

/-- `mapping_iterator`'s mutable data (lines 515-520): the stored inner
cursor and the single scratch slot for `operator->`.  The element type of the
inner cursor is `B` (the slot's type `value_t` must be assignable from
`*iter`, which in this homogeneous model makes both `B`). -/
structure MappingIterator (I B : Type) where
  iter : I
  temp_mapped_value : B
  deriving DecidableEq, Repr

/-- `mapping_iterator::operator*` (line 548): `return func(*iter);` —
recomputed from the inner cursor's current read on every access; the scratch
slot is not consulted and not written. -/
def MappingIterator.derefStar {I B St : Type} (derefInner : I → St → B) (f : B → B)
    (m : MappingIterator I B) (st : St) : B :=
  f (derefInner m.iter st)

/-- `mapping_iterator::operator->` (lines 555, 557), exactly as written:
`temp_mapped_value = *iter; return std::addressof(temp_mapped_value);` —
the inner read is stored into the scratch slot and its address returned.
Note the stored function `f` is *not* applied, although it is in scope
(mirroring the C++ member `func` going unused in this operator).  Returns the
updated cursor and the value now sitting in the slot the returned pointer
aims at. -/
def MappingIterator.derefArrow {I B St : Type} (derefInner : I → St → B) (f : B → B)
    (m : MappingIterator I B) (st : St) : MappingIterator I B × B :=
  let v := derefInner m.iter st
  ({ m with temp_mapped_value := v }, v)

/-- A concrete inner cursor for the mapping-cursor scenarios: an index into a
caller-owned store of integers (e.g. a `std::vector<int>::iterator`);
dereferencing reads the store at that index. -/
def listDeref (i : Nat) (st : List Int) : Int :=
  st.getD i 0

/-! ## Capability-gated interface exposure (`value_iterator`, SFINAE gates)

Every tier-gated member of `value_iterator` is guarded by
`std::enable_if_t<... && bidirectional, ...>` or `... && rand_access ...`
(iterators++.h lines 123-168); an operation whose guard is false does not
exist in the overload set, so invoking it is a compile-time error.  The
interface actually exposed for an element type is therefore a pure function
of that type. -/

/-- The operations a `value_iterator` can expose. -/
inductive CursorOp where
  | star
  | arrow
  | preInc
  | eqCmp
  | preDec
  | indexOp
  | addAssignOp
  | subAssignOp
  | plusOp
  | minusOp
  | distOp
  | ltCmp
  | leCmp
  | gtCmp
  | geCmp
  deriving DecidableEq, Repr

/-- `value_iterator::rand_access` (line 80): true iff the deduced category is
random access. -/
def rand_access (t : CppType) : Bool :=
  iterator_category t == IterCategory.randomAccess

/-- `value_iterator::bidirectional` (line 82): `rand_access ||` the deduced
category is bidirectional. -/
def bidirectional (t : CppType) : Bool :=
  rand_access t || (iterator_category t == IterCategory.bidirectional)

/-- The set of operations `value_iterator<T>` exposes: the unconditional
forward interface (lines 105-118, 173), plus decrement iff `bidirectional`
(lines 123-127), plus the random-access block iff `rand_access`
(lines 132-168). -/
def exposedOps (t : CppType) : List CursorOp :=
  [CursorOp.star, CursorOp.arrow, CursorOp.preInc, CursorOp.eqCmp]
    ++ (if bidirectional t then [CursorOp.preDec] else [])
    ++ (if rand_access t then
          [CursorOp.indexOp, CursorOp.addAssignOp, CursorOp.subAssignOp, CursorOp.plusOp,
           CursorOp.minusOp, CursorOp.distOp, CursorOp.ltCmp, CursorOp.leCmp, CursorOp.gtCmp,
           CursorOp.geCmp]
        else [])

/-! ## Helper lemmas -/

theorem toSigned_wrap (w : Nat) (hw : 1 ≤ w) (d : Int)
    (h1 : -(2 ^ (w - 1) : Int) ≤ d) (h2 : d < 2 ^ (w - 1)) :
    toSigned w (d % 2 ^ w) = d := by
  have hM : (2 : Int) ^ w = 2 ^ (w - 1) * 2 := by
    rw [← pow_succ]
    congr 1
    omega
  have hm : (0 : Int) < 2 ^ (w - 1) := by positivity
  rcases le_or_lt 0 d with hd | hd
  · have he : d % 2 ^ w = d := Int.emod_eq_of_lt hd (by nlinarith)
    rw [he]
    simp only [toSigned]
    rw [if_pos h2]
  · have h0 : 0 ≤ d + 2 ^ w := by nlinarith
    have hlt : d + 2 ^ w < 2 ^ w := by linarith
    have he : d % 2 ^ w = d + 2 ^ w := by
      have hself := Int.add_mul_emod_self_left (a := d) (b := (2 : Int) ^ w) (c := 1)
      rw [mul_one] at hself
      rw [← hself]
      exact Int.emod_eq_of_lt h0 hlt
    rw [he]
    simp only [toSigned]
    rw [if_neg (by nlinarith)]
    ring

theorem funcIterator_iterate (S V : Type) (step : S → S × V) (s : S) (n : Nat) :
    (FuncIterator.inc step)^[n] (FuncIterator.start step s) =
      { value := genVal step s n, fstate := genState step s (n + 1) } := by
  induction n with
  | zero => rfl
  | succ n ih =>
      rw [Function.iterate_succ_apply', ih]
      simp [FuncIterator.inc, genVal, genState]

theorem countingStep_count (S V : Type) (step : S → S × V) (s : S) (c k : Nat) :
    (genState (countingStep step) (s, c) k).2 = c + k := by
  induction k generalizing s c with
  | zero => rfl
  | succ k ih =>
      have h := ih s c
      simp only [genState, countingStep]
      omega

theorem iterInc_frame (S V : Type) (step : S → S × V) (n : Nat) (x : Nat)
    (it : HFuncIterator S) (h : Heap V) (hx : x ≠ it.buf) :
    (iterInc step n (it, h)).1.buf = it.buf
  ∧ (iterInc step n (it, h)).2.read x = h.read x := by
  induction n generalizing it h with
  | zero => exact ⟨rfl, rfl⟩
  | succ n ih =>
      simp only [iterInc, HFuncIterator.inc]
      have step2 := ih ⟨it.buf, (step it.fstate).1⟩ (h.write it.buf (step it.fstate).2) hx
      refine ⟨step2.1, step2.2.trans ?_⟩
      simp [Heap.read, Heap.write, hx]

/-! ## The claims -/

/-- C3: for every element type granted the RandomAccess tier, the deduced
difference type is a signed integer; for unsigned element types it is the
signed type of equal width; for pointer element types it is the pointer-sized
signed integer `std::ptrdiff_t`.  (Settled against the current header
src/iterators++.h; the older revision src/unnamed/part_000 returned the
element type itself, unsigned included.) -/
theorem C3_difference_type_signed (t : CppType)
    (h : iterator_category t = IterCategory.randomAccess) :
    (difference_type t).sgn = true
  ∧ (∀ w, t = CppType.unsignedInt w →
      difference_type t = { sgn := true, width := w } ∧ elemWidth t = w)
  ∧ (isPointer t = true → difference_type t = ptrdiffTy) := by
  rcases t with w | w | _ | ⟨d, p⟩
  · simp [difference_type, elemWidth, isPointer]
  · simp [difference_type, elemWidth, isPointer]
  · simp [difference_type, elemWidth, isPointer, ptrdiffTy]
  · exact absurd h (by cases d <;> cases p <;> decide)

theorem C3_difference_type_signed_witness :
    iterator_category (CppType.unsignedInt 32) = IterCategory.randomAccess
  ∧ difference_type (CppType.unsignedInt 32) = { sgn := true, width := 32 } := by
  refine ⟨by decide, ?_⟩
  exact ((C3_difference_type_signed (CppType.unsignedInt 32) (by decide)).2.1 32 rfl).1

/-- C4: the deduced capability tier follows the three-step procedure:
RandomAccess exactly when the element type supports compound add-assignment
and is numeric-or-address-like (integral or pointer); otherwise Bidirectional
exactly when it supports prefix decrement; otherwise Forward.  (All element
types here satisfy the minimum contract of prefix increment + equality, per
the datatype of contract-satisfying types.) -/
theorem C4_capability_tier_procedure (t : CppType) :
    (iterator_category t = IterCategory.randomAccess ↔
       (hasCompoundAdd t && (isIntegral t || isPointer t)) = true)
  ∧ (iterator_category t ≠ IterCategory.randomAccess →
       (iterator_category t = IterCategory.bidirectional ↔ hasPrefixDecOp t = true))
  ∧ (iterator_category t ≠ IterCategory.randomAccess →
       iterator_category t ≠ IterCategory.bidirectional →
       iterator_category t = IterCategory.forward) := by
  rcases t with w | w | _ | ⟨d, p⟩
  · simp [iterator_category, satisfies_rand_access, isIntegral, isPointer, hasCompoundAdd,
      hasPrefixDecOp]
  · simp [iterator_category, satisfies_rand_access, isIntegral, isPointer, hasCompoundAdd,
      hasPrefixDecOp]
  · decide
  · cases d <;> cases p <;> decide

theorem C4_capability_tier_procedure_witness :
    iterator_category (CppType.custom true false) ≠ IterCategory.randomAccess
  ∧ (iterator_category (CppType.custom true false) = IterCategory.bidirectional ↔
       hasPrefixDecOp (CppType.custom true false) = true)
  ∧ iterator_category (CppType.custom false false) = IterCategory.forward := by
  exact ⟨by decide, (C4_capability_tier_procedure (CppType.custom true false)).2.1 (by decide),
    (C4_capability_tier_procedure (CppType.custom false false)).2.2 (by decide) (by decide)⟩

/-- C2: a pull-variant function cursor calls the stored callable once at
construction to populate the cache, so the first dereference (no prior
increment) is the callable's first produced value; each increment calls the
callable exactly once more and overwrites the cache, so after `n` increments
dereference returns the `(n+1)`-th produced value.  The second conjunct pins
the callable's internal state to exactly `n+1` step applications, and the
third counts invocations explicitly via an instrumented callable. -/
theorem C2_func_iterator_pull_contract (S V : Type) (step : S → S × V) (s : S) (n : Nat) :
    FuncIterator.deref ((FuncIterator.inc step)^[n] (FuncIterator.start step s)) = genVal step s n
  ∧ ((FuncIterator.inc step)^[n] (FuncIterator.start step s)).fstate = genState step s (n + 1)
  ∧ ((FuncIterator.inc (countingStep step))^[n]
      (FuncIterator.start (countingStep step) (s, 0))).fstate.2 = n + 1 := by
  refine ⟨?_, ?_, ?_⟩
  · rw [funcIterator_iterate]
    rfl
  · rw [funcIterator_iterate]
  · rw [funcIterator_iterate]
    show (genState (countingStep step) (s, 0) (n + 1)).2 = n + 1
    rw [countingStep_count]
    omega

/-- C5: counting-cursor equality, the four relational comparisons and
distance are resolved purely by the stored counts, never by the inner
cursors: cursors with arbitrary (different) inner cursors at the same count
compare equal, and cursors with the same inner cursor value at different
counts compare unequal. -/
theorem C5_count_comparisons_by_count (I : Type) (i1 i2 : I) (j k : Int) :
    (CountIterator.beq ⟨i1, j⟩ ⟨i2, k⟩ = true ↔ j = k)
  ∧ CountIterator.dist ⟨i1, j⟩ ⟨i2, k⟩ = j - k
  ∧ (CountIterator.lt ⟨i1, j⟩ ⟨i2, k⟩ = true ↔ j < k)
  ∧ (CountIterator.le ⟨i1, j⟩ ⟨i2, k⟩ = true ↔ j ≤ k)
  ∧ (CountIterator.gt ⟨i1, j⟩ ⟨i2, k⟩ = true ↔ k < j)
  ∧ (CountIterator.ge ⟨i1, j⟩ ⟨i2, k⟩ = true ↔ k ≤ j)
  ∧ CountIterator.beq ⟨i1, k⟩ ⟨i2, k⟩ = true
  ∧ (j ≠ k → CountIterator.beq ⟨i1, j⟩ ⟨i1, k⟩ = false) := by
  refine ⟨?_, rfl, ?_, ?_, ?_, ?_, ?_, ?_⟩
  · simp [CountIterator.beq]
  · simp [CountIterator.lt]
  · simp [CountIterator.le]
  · simp [CountIterator.gt]
  · simp [CountIterator.ge]
  · simp [CountIterator.beq]
  · intro h
    simp [CountIterator.beq, h]

theorem C5_count_comparisons_by_count_witness :
    ((0 : Int) ≠ 1)
  ∧ CountIterator.beq (⟨true, 1⟩ : CountIterator Bool) ⟨false, 1⟩ = true
  ∧ CountIterator.beq (⟨true, 0⟩ : CountIterator Bool) ⟨true, 1⟩ = false := by
  have h := C5_count_comparisons_by_count Bool true false 0 1
  exact ⟨by decide, h.2.2.2.2.2.2.1, h.2.2.2.2.2.2.2 (by decide)⟩

/-- C6 (invariant): every positional operation keeps the counter in lockstep
with the wrapped cursor — from any starting state, after any sequence of
increments/decrements/offsets, the counter has changed by exactly the net
displacement of the sequence and the inner cursor is the result of applying
that same sequence of its own operations; they never desynchronize. -/
theorem C6_count_lockstep (I : Type) (ops : InnerOps I) (c : CountIterator I) (l : List PosOp) :
    CountIterator.applyOps ops c l =
      { iter := innerApplyOps ops c.iter l, count := c.count + netDelta l } := by
  induction l generalizing c with
  | nil => simp [CountIterator.applyOps, innerApplyOps, netDelta]
  | cons o rest ih =>
      cases o <;>
        simp [CountIterator.applyOps, innerApplyOps, netDelta, ih, CountIterator.applyOp,
          innerApplyOp, CountIterator.inc, CountIterator.dec, CountIterator.addAssign,
          CountIterator.subAssign, opDelta] <;>
        ring

/-- C7: mapping-cursor dereference recomputes `f(*inner)` fresh on every
access and never caches: the result is independent of the scratch slot's
contents (so no earlier access can influence it), and in the concrete
scenario an external mutation of the value the inner cursor reads (store
entry 2 changed to 3) between two dereferences of the same mapping cursor
changes the second result from 4 to 9. -/
theorem C7_mapping_deref_uncached :
    (∀ (I B St : Type) (derefInner : I → St → B) (f : B → B) (it : I) (b1 b2 : B) (st : St),
        MappingIterator.derefStar derefInner f ⟨it, b1⟩ st = f (derefInner it st)
      ∧ MappingIterator.derefStar derefInner f ⟨it, b1⟩ st =
          MappingIterator.derefStar derefInner f ⟨it, b2⟩ st)
  ∧ MappingIterator.derefStar listDeref (fun v => v * v) ⟨0, 0⟩ [2, 5] = 4
  ∧ MappingIterator.derefStar listDeref (fun v => v * v) ⟨0, 0⟩ [3, 5] = 9 := by
  exact ⟨fun _ _ _ _ _ _ _ _ _ => ⟨rfl, rfl⟩, rfl, rfl⟩

/-- C1 (divergence witness): arrow access on a mapping cursor stores the raw
inner dereference into the scratch slot *without* applying the transform,
contradicting the claim (and the code's own comment at iterators++.h lines
552-554).  With the inner cursor reading 2 and `f v = v * v`, the pointed-to
value after `operator->` is 2, not `f(2) = 4`. -/
theorem C1_arrow_skips_transform :
    (MappingIterator.derefArrow listDeref (fun v => v * v) ⟨0, 0⟩ [2]).2 = 2
  ∧ (MappingIterator.derefArrow listDeref (fun v => v * v) ⟨0, 0⟩ [2]).1.temp_mapped_value = 2
  ∧ (fun v : Int => v * v) (listDeref 0 [2]) = 4
  ∧ (MappingIterator.derefArrow listDeref (fun v => v * v) ⟨0, 0⟩ [2]).2 ≠
      (fun v : Int => v * v) (listDeref 0 [2]) := by
  exact ⟨rfl, rfl, rfl, by decide⟩

/-- C8: for value cursors over integer/pointer element types, offsetting by
`d` then taking the distance back to an unoffset copy yields exactly `d`, and
`cursor[d]` equals `*(cursor + d)`.  Stated for the unsigned wrap-around
model (any width `w ≥ 1`, any representable `d`) and for the signed/pointer
model. -/
theorem C8_offset_distance_index (w : Nat) (v : UValueIterator) (d : Int)
    (hw : 1 ≤ w) (h1 : -(2 ^ (w - 1) : Int) ≤ d) (h2 : d < 2 ^ (w - 1)) :
    UValueIterator.dist w (UValueIterator.plus w v d) v = d
  ∧ UValueIterator.index w v d = UValueIterator.deref (UValueIterator.plus w v d)
  ∧ (∀ (p : IValueIterator) (e : Int),
        IValueIterator.dist (IValueIterator.plus p e) p = e
      ∧ IValueIterator.index p e = IValueIterator.deref (IValueIterator.plus p e)) := by
  refine ⟨?_, rfl, fun p e => ⟨by simp [IValueIterator.dist, IValueIterator.plus,
    IValueIterator.addAssign], rfl⟩⟩
  have hMpos : (0 : Int) < 2 ^ w := by positivity
  show toSigned w
      (((((((v.data : Int) + d) % (2 ^ w : Int)).toNat : Nat) : Int) - v.data) % (2 ^ w : Int)) = d
  rw [Int.toNat_of_nonneg (Int.emod_nonneg _ (by positivity))]
  have key : (((v.data : Int) + d) % (2 ^ w : Int) - v.data) % (2 ^ w : Int) = d % 2 ^ w := by
    conv_rhs => rw [show d = (v.data : Int) + d - v.data by ring]
    rw [Int.sub_emod, Int.emod_emod_of_dvd _ dvd_rfl, ← Int.sub_emod]
  rw [key]
  exact toSigned_wrap w hw d h1 h2

theorem C8_offset_distance_index_witness :
    ((1 : Nat) ≤ 8 ∧ -(2 ^ (8 - 1) : Int) ≤ -100 ∧ (-100 : Int) < 2 ^ (8 - 1))
  ∧ UValueIterator.dist 8 (UValueIterator.plus 8 ⟨200⟩ (-100)) ⟨200⟩ = -100 := by
  refine ⟨⟨by norm_num, by norm_num, by norm_num⟩, ?_⟩
  exact (C8_offset_distance_index 8 ⟨200⟩ (-100) (by norm_num) (by norm_num) (by norm_num)).1

/-- C9: the interface a value cursor exposes is a pure compile-time function
of its element type, and operations above the deduced tier are simply absent
(invoking them cannot compile, so no runtime failure path exists): a type
with only increment and equality exposes exactly the forward interface;
Forward-tier types expose no decrement and no random-access operations;
Bidirectional-tier types expose no random-access operations. -/
theorem C9_tier_gated_exposure :
    exposedOps (CppType.custom false false) =
      [CursorOp.star, CursorOp.arrow, CursorOp.preInc, CursorOp.eqCmp]
  ∧ (∀ t : CppType, iterator_category t = IterCategory.forward →
        CursorOp.preDec ∉ exposedOps t ∧ CursorOp.indexOp ∉ exposedOps t ∧
        CursorOp.addAssignOp ∉ exposedOps t ∧ CursorOp.subAssignOp ∉ exposedOps t ∧
        CursorOp.plusOp ∉ exposedOps t ∧ CursorOp.minusOp ∉ exposedOps t ∧
        CursorOp.distOp ∉ exposedOps t)
  ∧ (∀ t : CppType, iterator_category t = IterCategory.bidirectional →
        CursorOp.indexOp ∉ exposedOps t ∧ CursorOp.addAssignOp ∉ exposedOps t ∧
        CursorOp.subAssignOp ∉ exposedOps t ∧ CursorOp.plusOp ∉ exposedOps t ∧
        CursorOp.minusOp ∉ exposedOps t ∧ CursorOp.distOp ∉ exposedOps t) := by
  refine ⟨by decide, ?_, ?_⟩
  · intro t h
    have hra : rand_access t = false := by simp [rand_access, h]
    have hbd : bidirectional t = false := by simp [bidirectional, rand_access, h]
    simp [exposedOps, hra, hbd]
  · intro t h
    have hra : rand_access t = false := by simp [rand_access, h]
    simp [exposedOps, hra, bidirectional]

theorem C9_tier_gated_exposure_witness :
    (iterator_category (CppType.custom false false) = IterCategory.forward
      ∧ CursorOp.preDec ∉ exposedOps (CppType.custom false false))
  ∧ (iterator_category (CppType.custom true false) = IterCategory.bidirectional
      ∧ CursorOp.indexOp ∉ exposedOps (CppType.custom true false)) := by
  exact ⟨⟨by decide, (C9_tier_gated_exposure.2.1 (CppType.custom false false) (by decide)).1⟩,
    ⟨by decide, (C9_tier_gated_exposure.2.2 (CppType.custom true false) (by decide)).1⟩⟩

/-- C10: after copy-constructing (or copy-assigning) a pull-variant function
cursor, the two cursors are fully independent: (a) incrementing the copy any
number of times never changes the original's cache buffer, and the copy's
buffer is distinct storage; (b) incrementing the original never changes the
copy's buffer; (c) likewise after copy-assignment between cursors with
distinct buffers.  (Each cursor's callable state is a by-value field of its
own record, so it is untouched by construction.) -/
theorem C10_copy_independence (S V : Type) (step : S → S × V) (a : HFuncIterator S)
    (h0 : Heap V) (hv : a.buf < h0.nextAddr) (n : Nat) :
    ((iterInc step n (HFuncIterator.copyCtor a h0)).2.read a.buf = h0.read a.buf
  ∧ (iterInc step n (HFuncIterator.copyCtor a h0)).1.buf ≠ a.buf)
  ∧ (iterInc step n (a, (HFuncIterator.copyCtor a h0).2)).2.read (HFuncIterator.copyCtor a h0).1.buf
      = (HFuncIterator.copyCtor a h0).2.read (HFuncIterator.copyCtor a h0).1.buf
  ∧ (∀ dst : HFuncIterator S, dst.buf ≠ a.buf →
        (iterInc step n (HFuncIterator.assign dst a h0)).2.read a.buf = h0.read a.buf) := by
  have hne : a.buf ≠ h0.nextAddr := by omega
  have hfr := iterInc_frame S V step n a.buf ⟨h0.nextAddr, a.fstate⟩
    ((h0.alloc (h0.read a.buf)).2) hne
  refine ⟨⟨?_, ?_⟩, ?_, ?_⟩
  · show (iterInc step n (⟨h0.nextAddr, a.fstate⟩, (h0.alloc (h0.read a.buf)).2)).2.read a.buf
      = h0.read a.buf
    rw [hfr.2]
    simp [Heap.read, Heap.alloc, hne]
  · show (iterInc step n (⟨h0.nextAddr, a.fstate⟩, (h0.alloc (h0.read a.buf)).2)).1.buf ≠ a.buf
    rw [hfr.1]
    simp only [ne_eq]
    omega
  · have hfr3 := iterInc_frame S V step n h0.nextAddr a ((h0.alloc (h0.read a.buf)).2)
      (by omega)
    show (iterInc step n (a, (h0.alloc (h0.read a.buf)).2)).2.read h0.nextAddr
      = (h0.alloc (h0.read a.buf)).2.read h0.nextAddr
    exact hfr3.2
  · intro dst hd
    have hfr4 := iterInc_frame S V step n a.buf ⟨dst.buf, a.fstate⟩
      (h0.write dst.buf (h0.read a.buf)) (Ne.symm hd)
    show (iterInc step n (⟨dst.buf, a.fstate⟩, h0.write dst.buf (h0.read a.buf))).2.read a.buf
      = h0.read a.buf
    rw [hfr4.2]
    simp [Heap.read, Heap.write, Ne.symm hd]

theorem C10_copy_independence_witness :
    ((0 : Nat) < 1)
  ∧ (iterInc (fun s => (s + 1, s * 10)) 3
      (HFuncIterator.copyCtor (⟨0, 5⟩ : HFuncIterator Nat)
        (⟨fun _ => 7, 1⟩ : Heap Nat))).2.read 0 = 7 := by
  refine ⟨by decide, ?_⟩
  have h := (C10_copy_independence Nat Nat (fun s => (s + 1, s * 10)) ⟨0, 5⟩
    ⟨fun _ => 7, 1⟩ (by decide) 3).1.1
  exact h.trans rfl

end IteratorsPP
